import Mathlib

/-!
Shallow embedding of the HR attrition dashboard (hr_analysis.py and
hr_analysis2.py) and proofs about its loader, aggregates and insight rules.

Modelling conventions:
* A CSV row carries the four columns the analysis reads: the Yes/No
  attrition field (퇴직여부), the department (부서), the salary-increase
  percentage (급여증가분백분율, `none` models a NaN cell), and the overtime
  level (야근정도).  The two constant columns that the loader drops
  (직원수, 18세이상) carry no information, so only their presence is
  tracked, as booleans on the table.
* `pd.read_csv` is modelled by an `Except` argument: `.error` is a missing
  or unparsable file.  Steps of the scripts that can raise produce
  `Except.error`; `.ok` is a normal return.
* Rates are rational numbers; pandas `mean` of an empty selection is NaN,
  which never reaches a comparison in the verified paths, and division by
  zero in `ℚ` yields 0 in the same harmless positions.
* `Series.round` (numpy) rounds half to even; `rnd` below implements that
  on `ℚ`.
* pandas `groupby` returns groups under their keys in ascending key order;
  `sort_values(ascending=False)` sorts a series by value, descending.
-/

namespace HR

/-- One raw CSV record, restricted to the columns the dashboard reads. -/
structure RawRow where
  attritionYN : String
  dept : String
  salaryPct : Option ℚ
  overtime : String
deriving DecidableEq, Repr

/-- A parsed CSV file: its rows plus presence flags for the two
constant columns 직원수 and 18세이상 that the loader tries to drop. -/
structure Csv where
  rows : List RawRow
  hasEmpCount : Bool
  hasOver18 : Bool
deriving DecidableEq, Repr

/-- A cleaned record after `load_df`: the 0/1 attrition flag 퇴직 has been
derived from the Yes/No field. -/
structure Row where
  quit : ℤ
  dept : String
  salaryPct : Option ℚ
  overtime : String
deriving DecidableEq, Repr

/-- The cleaned table returned by `load_df`, with the column-presence
flags of the two droppable columns. -/
structure Table where
  rows : List Row
  hasEmpCount : Bool
  hasOver18 : Bool
deriving DecidableEq, Repr

/-- Model of the `{"Yes":1, "No":0}` lookup used by `df["퇴직여부"].map(...)`; any other
value maps to NaN (`none`). -/
def mapYN (s : String) : Option ℤ :=
  if s = "Yes" then some 1 else if s = "No" then some 0 else none

/-- Flag derivation for one row; `none` when the Yes/No field holds an
unrecognized value (pandas `map` produces NaN there). -/
def toFlag (r : RawRow) : Option Row :=
  (mapYN r.attritionYN).map fun q =>
    { quit := q, dept := r.dept, salaryPct := r.salaryPct, overtime := r.overtime }

/-- Model of `.map({"Yes":1,"No":0}).astype("int8")` over the whole column:
`astype` raises (IntCastingNaNError) as soon as any cell mapped to NaN. -/
def astypeInt8 : List RawRow → Option (List Row)
  | [] => some []
  | r :: rs =>
    match toFlag r, astypeInt8 rs with
    | some x, some xs => some (x :: xs)
    | _, _ => none

/-- The empty `pd.DataFrame()` returned when reading the file fails. -/
def emptyTable : Table := { rows := [], hasEmpCount := false, hasOver18 := false }

/-- Loader `load_df` of hr_analysis.py: a bare `except:` around `pd.read_csv` only;
then the flag derivation (line 28) and an unconditional
`df.drop(['직원수','18세이상'])` (line 29), which raises a KeyError when
either column is absent. -/
def load_df (readResult : Except String Csv) : Except String Table :=
  match readResult with
  | .error _ => .ok emptyTable
  | .ok csv =>
    match astypeInt8 csv.rows with
    | none => .error "IntCastingNaNError"
    | some rows =>
      if csv.hasEmpCount && csv.hasOver18 then
        .ok { rows := rows, hasEmpCount := false, hasOver18 := false }
      else
        .error "KeyError"

/-- Loader `load_df` of hr_analysis2.py: `read_csv` guarded by `except` clauses;
the flag derivation is guarded by column presence (always true in this
model, where the attrition column is part of the schema), and the two
constant columns are dropped only when both are present (lines 71-73). -/
def load_df2 (readResult : Except String Csv) : Except String Table :=
  match readResult with
  | .error _ => .ok emptyTable
  | .ok csv =>
    match astypeInt8 csv.rows with
    | none => .error "IntCastingNaNError"
    | some rows =>
      if csv.hasEmpCount && csv.hasOver18 then
        .ok { rows := rows, hasEmpCount := false, hasOver18 := false }
      else
        .ok { rows := rows, hasEmpCount := csv.hasEmpCount, hasOver18 := csv.hasOver18 }

/-- Model of `df["퇴직"].sum()`. -/
def quitSum (rows : List Row) : ℤ := (rows.map Row.quit).sum

/-- Model of `quit_rate = df["퇴직"].mean()*100` (both scripts). -/
def quit_rate (rows : List Row) : ℚ := (quitSum rows : ℚ) / rows.length * 100

/-- Model of `stay_rate = 100 - quit_rate` (both scripts). -/
def stay_rate (rows : List Row) : ℚ := 100 - quit_rate rows

/-- numpy `round`: round half to even, the rounding used by
`tmp["급여증가분백분율"].round()`. -/
def rnd (v : ℚ) : ℤ :=
  if Int.fract v < 1/2 then ⌊v⌋
  else if 1/2 < Int.fract v then ⌊v⌋ + 1
  else if 2 ∣ ⌊v⌋ then ⌊v⌋ else ⌊v⌋ + 1

/-- pandas `.round(1)`, used by hr_analysis2.py on the department rates. -/
def roundTo1 (q : ℚ) : ℚ := (rnd (q * 10) : ℚ) / 10

/-- Model of `groupby(...)["퇴직"].mean()*100` for the rows selected by `p`. -/
def groupMeanPct (l : List Row) (p : Row → Bool) : ℚ :=
  (quitSum (l.filter p) : ℚ) / (l.filter p).length * 100

/-- The distinct department keys, in ascending order as `groupby` yields
them. -/
def deptKeys (rows : List Row) : List String :=
  List.insertionSort (· ≤ ·) (rows.map Row.dept).dedup

/-- Attrition rate of one department group. -/
def deptRate (rows : List Row) (k : String) : ℚ :=
  groupMeanPct rows fun r => r.dept = k

/-- Comparison by rate value, descending: the order produced by
`sort_values(ascending=False)`. -/
def valGe {K : Type} (a b : K × ℚ) : Prop := b.2 ≤ a.2

instance {K : Type} : DecidableRel (@valGe K) :=
  fun a b => inferInstanceAs (Decidable (b.2 ≤ a.2))

instance {K : Type} : IsTotal (K × ℚ) valGe := ⟨fun a b => le_total b.2 a.2⟩

instance {K : Type} : IsTrans (K × ℚ) valGe := ⟨fun _ _ _ h1 h2 => le_trans h2 h1⟩

/-- Model of `dept = df.groupby("부서")["퇴직"].mean().sort_values(ascending=False)*100`
(hr_analysis.py line 51), as an association list. -/
def dept (rows : List Row) : List (String × ℚ) :=
  List.insertionSort valGe ((deptKeys rows).map fun k => (k, deptRate rows k))

/-- Model of `tmp = df[["급여증가분백분율","퇴직"]].dropna()`. -/
def salRows (rows : List Row) : List Row :=
  rows.filter fun r => r.salaryPct.isSome

/-- Model of `tmp["인상률(%)"] = tmp["급여증가분백분율"].round().astype(int)`. -/
def salKey (r : Row) : ℤ := rnd (r.salaryPct.getD 0)

/-- The distinct salary buckets, ascending. -/
def salKeys (rows : List Row) : List ℤ :=
  List.insertionSort (· ≤ ·) ((salRows rows).map salKey).dedup

/-- Attrition rate of one salary bucket. -/
def salRate (rows : List Row) (k : ℤ) : ℚ :=
  groupMeanPct (salRows rows) fun r => salKey r = k

/-- Model of `sal = tmp.groupby("인상률(%)")["퇴직"].mean()*100` (hr_analysis.py
line 69): key-ascending, not value-sorted. -/
def sal (rows : List Row) : List (ℤ × ℚ) :=
  (salKeys rows).map fun k => (k, salRate rows k)

/-- The distinct overtime levels, ascending. -/
def otKeys (rows : List Row) : List String :=
  List.insertionSort (· ≤ ·) (rows.map Row.overtime).dedup

/-- Attrition rate of one overtime group. -/
def otRate (rows : List Row) (k : String) : ℚ :=
  groupMeanPct rows fun r => r.overtime = k

/-- Model of `ot = df.groupby("야근정도")["퇴직"].mean()*100` (hr_analysis.py
line 84): key-ascending, not value-sorted. -/
def ot (rows : List Row) : List (String × ℚ) :=
  (otKeys rows).map fun k => (k, otRate rows k)

/-- hr_analysis2.py line 146-148: department rates and (percentage) counts
are rounded to one decimal, then sorted by the 퇴직율 column descending.
Only the rate column is modelled; the `직원수_pct` count column is
display-only. -/
def dept_quit (rows : List Row) : List (String × ℚ) :=
  List.insertionSort valGe ((deptKeys rows).map fun k => (k, roundTo1 (deptRate rows k)))

/-- Aggregate `sal_quit` of hr_analysis2.py (lines 187-189), textually the same
computation as `sal`. -/
def sal_quit (rows : List Row) : List (ℤ × ℚ) :=
  (salKeys rows).map fun k => (k, salRate rows k)

/-- Aggregate `overtime_quit` of hr_analysis2.py (line 220), textually the same
computation as `ot`. -/
def overtime_quit (rows : List Row) : List (String × ℚ) :=
  (otKeys rows).map fun k => (k, otRate rows k)

/-- Rate `quit_rate` of hr_analysis2.py (line 92), textually the same
computation as in hr_analysis.py. -/
def quit_rate2 (rows : List Row) : ℚ := (quitSum rows : ℚ) / rows.length * 100

/-- Rate `stay_rate` of hr_analysis2.py (line 93). -/
def stay_rate2 (rows : List Row) : ℚ := 100 - quit_rate2 rows

/-- The templated sentences of hr_analysis.py, by their rule. -/
inductive Sentence where
  | needsAttention
  | stableOverall
  | overallHighDetail
  | overallStableDetail
  | deptHigh (ds : List String)
  | deptLow (ds : List String)
  | salLowGroup
  | salNoCorr
  | otHigh (g : String)
deriving DecidableEq, Repr

/-- The one-line summary (hr_analysis.py lines 96-99). -/
def summary (rows : List Row) : Sentence :=
  if quit_rate rows > 20 then .needsAttention else .stableOverall

/-- Insight rule 1 (hr_analysis.py lines 109-112). -/
def overallInsight (rows : List Row) : Sentence :=
  if quit_rate rows > 20 then .overallHighDetail else .overallStableDetail

/-- Model of `high_dept = dept[dept > dept_mean + 5].index.tolist()` where
`dept_mean = df["퇴직"].mean()*100` (hr_analysis.py lines 116-117). -/
def highDepts (rows : List Row) : List String :=
  ((dept rows).filter fun p => p.2 > quit_rate rows + 5).map Prod.fst

/-- Model of `low_dept = dept[dept < dept_mean - 5].index.tolist()` (line 118). -/
def lowDepts (rows : List Row) : List String :=
  ((dept rows).filter fun p => p.2 < quit_rate rows - 5).map Prod.fst

/-- Insight rule 2 (hr_analysis.py lines 119-122). -/
def deptInsights (rows : List Row) : List Sentence :=
  (if highDepts rows ≠ [] then [Sentence.deptHigh (highDepts rows)] else []) ++
  (if lowDepts rows ≠ [] then [Sentence.deptLow (lowDepts rows)] else [])

/-- Model of `Series.idxmin`: the entry carrying the first minimal value (`none` on
an empty series, where pandas raises). -/
def minPair {K : Type} : List (K × ℚ) → Option (K × ℚ)
  | [] => none
  | p :: ps => some (ps.foldl (fun acc q => if q.2 < acc.2 then q else acc) p)

/-- Model of `Series.idxmax`: the entry carrying the first maximal value. -/
def maxPair {K : Type} : List (K × ℚ) → Option (K × ℚ)
  | [] => none
  | p :: ps => some (ps.foldl (fun acc q => if acc.2 < q.2 then q else acc) p)

/-- Insight rule 3 (hr_analysis.py lines 125-130):
`min_sal, max_sal = sal.idxmin(), sal.idxmax()`, then the comparison
`sal[min_sal] > sal[max_sal]` chooses between the two sentences.
`idxmin` on an empty series raises a ValueError. -/
def salInsight (rows : List Row) : Except String Sentence :=
  match minPair (sal rows), maxPair (sal rows) with
  | some mn, some mx => .ok (if mn.2 > mx.2 then .salLowGroup else .salNoCorr)
  | _, _ => .error "ValueError"

/-- Insight rule 4 (hr_analysis.py lines 133-136): fires when
`ot.max() - ot.min() > 5` and names `ot.idxmax()`.  On an empty series
`max()` is NaN and the comparison is false, so nothing is emitted. -/
def otInsight (rows : List Row) : List Sentence :=
  match minPair (ot rows), maxPair (ot rows) with
  | some mn, some mx => if mx.2 - mn.2 > 5 then [Sentence.otHigh mx.1] else []
  | _, _ => []

/-- The insight list of hr_analysis.py (lines 106-136), in emission
order. -/
def insights (rows : List Row) : Except String (List Sentence) :=
  match salInsight rows with
  | .error e => .error e
  | .ok s => .ok ([overallInsight rows] ++ deptInsights rows ++ [s] ++ otInsight rows)

/-- The summary condition `quit_rate > 20` as the script tests it. -/
def needsAttentionB (rows : List Row) : Bool := quit_rate rows > 20

/-- hr_analysis2.py line 117-118: the 유지율 KPI delta `stay_rate > 80`. -/
def v2StayGood (rows : List Row) : Bool := stay_rate2 rows > 80

/-- hr_analysis2.py line 125-126: the 퇴직율 KPI delta `quit_rate < 20`. -/
def v2QuitLowDelta (rows : List Row) : Bool := quit_rate2 rows < 20

/-- hr_analysis2.py line 137: the insight text branches on
`quit_rate < 15`. -/
def v2QuitModerate (rows : List Row) : Bool := quit_rate2 rows < 15

/-- hr_analysis2.py line 137, negative branch: the "퇴직율 감소를 위한
대책이 필요합니다" (countermeasures needed) sentence fires. -/
def v2ActionNeeded (rows : List Row) : Bool := !(v2QuitModerate rows)

/-- What reaches the user: either the "no data" message with a halted
render (`st.error` + `st.stop`), or the dashboard. -/
inductive Page where
  | errorStop
  | dashboard (t : Table)
deriving DecidableEq, Repr

/-- Script flow of hr_analysis.py: load, then the `df.empty` guard
(lines 32-35). An `.error` result is an uncaught exception. -/
def app1 (rr : Except String Csv) : Except String Page :=
  match load_df rr with
  | .error e => .error e
  | .ok t => if t.rows.isEmpty then .ok .errorStop else .ok (.dashboard t)

/-- Script flow of hr_analysis2.py: load, then the `df.empty` guard
(lines 78-82). -/
def app2 (rr : Except String Csv) : Except String Page :=
  match load_df2 rr with
  | .error e => .error e
  | .ok t => if t.rows.isEmpty then .ok .errorStop else .ok (.dashboard t)

/-- A two-row table: one attrited, one retained, one department, one
salary bucket, one overtime level. -/
def exW : List Row :=
  [{ quit := 1, dept := "A", salaryPct := some 3, overtime := "Yes" },
   { quit := 0, dept := "A", salaryPct := some 3, overtime := "Yes" }]

/-- A ten-row table with exactly three attrited rows (the end-to-end
example of the spec). -/
def ex10 : List Row :=
  [{ quit := 1, dept := "A", salaryPct := some 3, overtime := "Yes" },
   { quit := 1, dept := "A", salaryPct := some 3, overtime := "Yes" },
   { quit := 1, dept := "A", salaryPct := some 3, overtime := "Yes" },
   { quit := 0, dept := "A", salaryPct := some 3, overtime := "Yes" },
   { quit := 0, dept := "A", salaryPct := some 3, overtime := "Yes" },
   { quit := 0, dept := "A", salaryPct := some 3, overtime := "Yes" },
   { quit := 0, dept := "A", salaryPct := some 3, overtime := "Yes" },
   { quit := 0, dept := "A", salaryPct := some 3, overtime := "Yes" },
   { quit := 0, dept := "A", salaryPct := some 3, overtime := "Yes" },
   { quit := 0, dept := "A", salaryPct := some 3, overtime := "Yes" }]

/-- A table whose overtime groups, in ascending key order, carry
ascending rates: group "High" has rate 0, group "Low" has rate 100. -/
def exC5 : List Row :=
  [{ quit := 0, dept := "A", salaryPct := none, overtime := "High" },
   { quit := 1, dept := "A", salaryPct := none, overtime := "Low" }]

/-- A six-row table with one attrited row: overall rate 100/6 ≈ 16.7%,
strictly between the 15% threshold of hr_analysis2.py and the 20%
threshold of hr_analysis.py. -/
def exC6 : List Row :=
  [{ quit := 1, dept := "A", salaryPct := some 3, overtime := "Yes" },
   { quit := 0, dept := "A", salaryPct := some 3, overtime := "Yes" },
   { quit := 0, dept := "A", salaryPct := some 3, overtime := "Yes" },
   { quit := 0, dept := "A", salaryPct := some 3, overtime := "Yes" },
   { quit := 0, dept := "A", salaryPct := some 3, overtime := "Yes" },
   { quit := 0, dept := "A", salaryPct := some 3, overtime := "Yes" }]

/-- A well-formed one-row CSV with both droppable columns present. -/
def csvGood : Csv :=
  { rows := [{ attritionYN := "Yes", dept := "A", salaryPct := some 3, overtime := "Yes" }],
    hasEmpCount := true, hasOver18 := true }

/-- The table `load_df` produces from `csvGood`. -/
def tableGood : Table :=
  { rows := [{ quit := 1, dept := "A", salaryPct := some 3, overtime := "Yes" }],
    hasEmpCount := false, hasOver18 := false }

/-- A CSV whose Yes/No field holds a third value on its only row. -/
def csvBadVal : Csv :=
  { rows := [{ attritionYN := "Maybe", dept := "A", salaryPct := none, overtime := "No" }],
    hasEmpCount := true, hasOver18 := true }

/-- A well-formed CSV in which the 직원수 column is absent. -/
def csvNoCols : Csv :=
  { rows := [{ attritionYN := "Yes", dept := "A", salaryPct := some 3, overtime := "Yes" }],
    hasEmpCount := false, hasOver18 := true }

section Lemmas

/-- Sum of a one-point indicator over a list not containing the point. -/
theorem sum_map_ite_of_not_mem {K M : Type} [DecidableEq K] [AddCommMonoid M]
    (ks : List K) (a : K) (c : M) (ha : a ∉ ks) :
    (ks.map fun k => if a = k then c else 0).sum = 0 := by
  induction ks with
  | nil => simp
  | cons k ks ih =>
    simp only [List.mem_cons, not_or] at ha
    simp [if_neg ha.1, ih ha.2]

/-- Sum of a one-point indicator over a duplicate-free list containing
the point. -/
theorem sum_map_ite_of_nodup {K M : Type} [DecidableEq K] [AddCommMonoid M]
    (ks : List K) (a : K) (c : M) (hnd : ks.Nodup) (ha : a ∈ ks) :
    (ks.map fun k => if a = k then c else 0).sum = c := by
  induction ks with
  | nil => simp at ha
  | cons k ks ih =>
    rcases List.nodup_cons.mp hnd with ⟨hk, hnd2⟩
    rcases List.mem_cons.mp ha with h | h
    · subst h
      simp [sum_map_ite_of_not_mem ks a c hk]
    · have hne : a ≠ k := by rintro rfl; exact hk h
      simp [if_neg hne, ih hnd2 h]

/-- Fiberwise decomposition of a list sum over a duplicate-free covering
key list. -/
theorem sum_groups {α K M : Type} [DecidableEq K] [AddCommMonoid M]
    (f : α → M) (key : α → K) (l : List α) (ks : List K)
    (hnd : ks.Nodup) (hcov : ∀ x ∈ l, key x ∈ ks) :
    (ks.map fun k => ((l.filter fun x => key x = k).map f).sum).sum
      = (l.map f).sum := by
  induction l with
  | nil =>
    have h0 : ∀ ks2 : List K,
        (ks2.map fun k => ((List.filter (fun x => decide (key x = k)) []).map f).sum).sum
          = (0 : M) := by
      intro ks2
      induction ks2 with
      | nil => simp
      | cons k ks2 ih => simp [ih]
    simp [h0 ks]
  | cons x t ih =>
    have hx : key x ∈ ks := hcov x (by simp)
    have ht : ∀ y ∈ t, key y ∈ ks := fun y hy => hcov y (by simp [hy])
    have hsplit : ∀ k : K,
        (((x :: t).filter fun y => key y = k).map f).sum
          = (if key x = k then f x else 0)
            + ((t.filter fun y => key y = k).map f).sum := by
      intro k
      by_cases h : key x = k
      · simp [List.filter_cons, h]
      · simp [List.filter_cons, h]
    simp only [hsplit]
    rw [List.sum_map_add, sum_map_ite_of_nodup ks (key x) (f x) hnd hx, ih ht]
    simp

/-- On a 0/1 flag column, the sum of the flags counts the flag-1 rows. -/
theorem quitSum_eq_count (g : List Row) (h01 : ∀ r ∈ g, r.quit = 0 ∨ r.quit = 1) :
    quitSum g = ((g.filter fun r => r.quit = 1).length : ℤ) := by
  induction g with
  | nil => simp [quitSum]
  | cons r t ih =>
    have hr := h01 r (by simp)
    have ht : ∀ x ∈ t, x.quit = 0 ∨ x.quit = 1 := fun x hx => h01 x (by simp [hx])
    have hq : quitSum (r :: t) = r.quit + quitSum t := by simp [quitSum]
    rcases hr with h | h
    · rw [hq, h, ih ht, List.filter_cons]
      simp [h]
    · rw [hq, h, ih ht, List.filter_cons]
      simp [h]
      ring

/-- Model of `groupby(...).mean()*100` as flag-1 count over group size, under the
0/1 flag invariant. -/
theorem groupMeanPct_eq (l : List Row) (p : Row → Bool)
    (h01 : ∀ r ∈ l, r.quit = 0 ∨ r.quit = 1) :
    groupMeanPct l p
      = (((l.filter p).filter fun r => r.quit = 1).length : ℚ)
        / ((l.filter p).length : ℚ) * 100 := by
  have h01f : ∀ r ∈ l.filter p, r.quit = 0 ∨ r.quit = 1 :=
    fun r hr => h01 r (List.mem_of_mem_filter hr)
  rw [groupMeanPct, quitSum_eq_count _ h01f]
  push_cast
  ring

/-- The quit sum, cast to `ℚ`, as a sum of casts. -/
theorem quitSum_cast (l : List Row) :
    ((quitSum l : ℤ) : ℚ) = (l.map fun r => (r.quit : ℚ)).sum := by
  rw [quitSum, Int.cast_list_sum, List.map_map]
  rfl

/-- Each group size times its mean-percentage rate gives 100 times the
group quit sum, and hence summing over a duplicate-free covering key
list recovers 100 times the total quit sum. -/
theorem weighted_groups {K : Type} [DecidableEq K]
    (l : List Row) (key : Row → K) (ks : List K)
    (hnd : ks.Nodup) (hcov : ∀ x ∈ l, key x ∈ ks) :
    ((ks.map fun k => (k, groupMeanPct l fun r => key r = k)).map
        fun p => ((l.filter fun r => key r = p.1).length : ℚ) * p.2).sum
      = (quitSum l : ℚ) * 100 := by
  rw [List.map_map]
  have hterm : ∀ k : K,
      (((l.filter fun r => key r = k).length : ℚ))
          * groupMeanPct l (fun r => key r = k)
        = ((quitSum (l.filter fun r => key r = k) : ℤ) : ℚ) * 100 := by
    intro k
    rw [groupMeanPct]
    rcases Nat.eq_zero_or_pos (l.filter fun r => key r = k).length with h0 | hpos
    · rw [List.length_eq_zero] at h0
      simp [h0, quitSum]
    · have hne : ((l.filter fun r => key r = k).length : ℚ) ≠ 0 :=
        Nat.cast_ne_zero.mpr (Nat.pos_iff_ne_zero.mp hpos)
      field_simp
  have hcomp : ((fun p : K × ℚ => ((l.filter fun r => key r = p.1).length : ℚ) * p.2)
      ∘ fun k => (k, groupMeanPct l fun r => key r = k))
      = fun k => ((l.filter fun r => key r = k).length : ℚ)
          * groupMeanPct l (fun r => key r = k) := rfl
  rw [hcomp]
  calc (ks.map fun k => ((l.filter fun r => key r = k).length : ℚ)
          * groupMeanPct l (fun r => key r = k)).sum
      = (ks.map fun k =>
          ((quitSum (l.filter fun r => key r = k) : ℤ) : ℚ) * 100).sum := by
        exact congrArg List.sum (List.map_congr_left fun k _ => hterm k)
    _ = (ks.map fun k =>
          ((quitSum (l.filter fun r => key r = k) : ℤ) : ℚ)).sum * 100 := by
        rw [List.sum_map_mul_right]
    _ = (quitSum l : ℚ) * 100 := by
        have : ∀ k : K, ((quitSum (l.filter fun r => key r = k) : ℤ) : ℚ)
            = ((l.filter fun r => key r = k).map fun r => (r.quit : ℚ)).sum :=
          fun k => quitSum_cast _
        simp only [this]
        rw [sum_groups (fun r => (r.quit : ℚ)) key l ks hnd hcov, ← quitSum_cast]

/-- Sorting does not change membership. -/
theorem mem_insertionSort_iff {α : Type} (r : α → α → Prop) [DecidableRel r]
    {a : α} {l : List α} : a ∈ List.insertionSort r l ↔ a ∈ l :=
  (List.perm_insertionSort r l).mem_iff

/-- Sorting does not change a mapped sum. -/
theorem sum_map_insertionSort {α M : Type} [AddCommMonoid M]
    (r : α → α → Prop) [DecidableRel r] (l : List α) (f : α → M) :
    ((List.insertionSort r l).map f).sum = (l.map f).sum :=
  ((List.perm_insertionSort r l).map f).sum_eq

/-- Any entry of a groupby-mean association list carries the rate of its
own key. -/
theorem agg_rate_mem {K : Type} [DecidableEq K] (l : List Row) (key : Row → K)
    (ks : List K) (h01 : ∀ r ∈ l, r.quit = 0 ∨ r.quit = 1) (p : K × ℚ)
    (hp : p ∈ ks.map fun k => (k, groupMeanPct l fun r => key r = k)) :
    p.2 = (((l.filter fun r => key r = p.1).filter fun r => r.quit = 1).length : ℚ)
          / ((l.filter fun r => key r = p.1).length : ℚ) * 100 := by
  rcases List.mem_map.mp hp with ⟨k, _, hk⟩
  subst hk
  exact groupMeanPct_eq l (fun r => key r = k) h01

/-- The group sizes weight the per-group rates back to the overall rate
scaled by the row count. -/
theorem agg_weighted {K : Type} [DecidableEq K] (l : List Row) (key : Row → K)
    (ks : List K) (hnd : ks.Nodup) (hcov : ∀ x ∈ l, key x ∈ ks) :
    ((ks.map fun k => (k, groupMeanPct l fun r => key r = k)).map
        fun p => ((l.filter fun r => key r = p.1).length : ℚ) * p.2).sum
      = (l.length : ℚ) * quit_rate l := by
  rw [weighted_groups l key ks hnd hcov, quit_rate]
  rcases Nat.eq_zero_or_pos l.length with h0 | hpos
  · rw [List.length_eq_zero] at h0
    simp [h0, quitSum]
  · have hne : (l.length : ℚ) ≠ 0 := Nat.cast_ne_zero.mpr (Nat.pos_iff_ne_zero.mp hpos)
    field_simp

/-- The department keys are duplicate-free. -/
theorem deptKeys_nodup (rows : List Row) : (deptKeys rows).Nodup :=
  ((List.perm_insertionSort _ _).nodup_iff).mpr (List.nodup_dedup _)

/-- The department keys are exactly the departments occurring in the
table. -/
theorem mem_deptKeys {rows : List Row} {k : String} :
    k ∈ deptKeys rows ↔ k ∈ rows.map Row.dept := by
  rw [deptKeys, mem_insertionSort_iff, List.mem_dedup]

/-- The salary-bucket keys are duplicate-free. -/
theorem salKeys_nodup (rows : List Row) : (salKeys rows).Nodup :=
  ((List.perm_insertionSort _ _).nodup_iff).mpr (List.nodup_dedup _)

/-- The salary-bucket keys are exactly the buckets of the non-null rows. -/
theorem mem_salKeys {rows : List Row} {k : ℤ} :
    k ∈ salKeys rows ↔ k ∈ (salRows rows).map salKey := by
  rw [salKeys, mem_insertionSort_iff, List.mem_dedup]

/-- The overtime keys are duplicate-free. -/
theorem otKeys_nodup (rows : List Row) : (otKeys rows).Nodup :=
  ((List.perm_insertionSort _ _).nodup_iff).mpr (List.nodup_dedup _)

/-- The overtime keys are exactly the overtime levels occurring in the
table. -/
theorem mem_otKeys {rows : List Row} {k : String} :
    k ∈ otKeys rows ↔ k ∈ rows.map Row.overtime := by
  rw [otKeys, mem_insertionSort_iff, List.mem_dedup]

/-- A successful flag cast only contains 0/1 flags. -/
theorem astypeInt8_flags (l : List RawRow) (out : List Row)
    (h : astypeInt8 l = some out) : ∀ r ∈ out, r.quit = 0 ∨ r.quit = 1 := by
  induction l generalizing out with
  | nil =>
    have hdef : astypeInt8 [] = some [] := rfl
    rw [hdef] at h
    injection h with h2
    subst h2
    intro r hr
    cases hr
  | cons x xs ih =>
    have hdef : astypeInt8 (x :: xs)
        = match toFlag x, astypeInt8 xs with
          | some y, some ys => some (y :: ys)
          | _, _ => none := rfl
    rw [hdef] at h
    cases hf : toFlag x <;> cases hrest : astypeInt8 xs <;>
      rw [hf, hrest] at h <;> simp only [Option.some.injEq, reduceCtorEq] at h
    rename_i y ys
    subst h
    intro r hr
    rcases List.mem_cons.mp hr with h | h
    · subst h
      have hq : ∃ q, mapYN x.attritionYN = some q ∧ r.quit = q := by
        rw [toFlag] at hf
        cases hm : mapYN x.attritionYN <;> rw [hm] at hf <;> simp at hf
        rename_i q
        exact ⟨q, rfl, by rw [← hf]⟩
      rcases hq with ⟨q, hq, hrq⟩
      rw [hrq]
      rw [mapYN] at hq
      split_ifs at hq <;> simp only [Option.some.injEq] at hq <;> omega
    · exact ih ys hrest r h

/-- One NaN in the mapped flag column makes the whole cast raise. -/
theorem astypeInt8_none (l : List RawRow) (r : RawRow)
    (hr : r ∈ l) (hbad : toFlag r = none) : astypeInt8 l = none := by
  induction l with
  | nil => cases hr
  | cons x xs ih =>
    have hdef : astypeInt8 (x :: xs)
        = match toFlag x, astypeInt8 xs with
          | some y, some ys => some (y :: ys)
          | _, _ => none := rfl
    rw [hdef]
    rcases List.mem_cons.mp hr with h | h
    · subst h
      rw [hbad]
    · rw [ih h]
      cases toFlag x <;> rfl

/-- A column of recognized Yes/No values casts successfully, one output
row per input row. -/
theorem astypeInt8_total (l : List RawRow) (hwf : ∀ r ∈ l, toFlag r ≠ none) :
    ∃ out, astypeInt8 l = some out ∧ out.length = l.length := by
  induction l with
  | nil => exact ⟨[], rfl, rfl⟩
  | cons x xs ih =>
    rcases ih (fun r hr => hwf r (by simp [hr])) with ⟨out, hout, hlen⟩
    have hx := hwf x (by simp)
    rcases Option.ne_none_iff_exists.mp hx with ⟨y, hy⟩
    refine ⟨y :: out, ?_, by simp [hlen]⟩
    have hdef : astypeInt8 (x :: xs)
        = match toFlag x, astypeInt8 xs with
          | some y, some ys => some (y :: ys)
          | _, _ => none := rfl
    rw [hdef, ← hy, hout]

/-- The flag lookup fails exactly when per-row flag derivation does. -/
theorem toFlag_eq_none {r : RawRow} : toFlag r = none ↔ mapYN r.attritionYN = none := by
  rw [toFlag]
  cases mapYN r.attritionYN <;> simp

end Lemmas

/-- C1: for every loaded table and each grouping dimension (department,
rounded salary-increase bucket, overtime level), every per-group rate in
the aggregate equals (rows in the group with flag 1)/(rows in the group)
× 100, and the per-group rates weighted by group sizes sum to the row
count times the overall rate of the rows carrying the grouping key (all
rows for department and overtime; the non-null rows for salary). -/
theorem claim_c1 (rows : List Row) (h01 : ∀ r ∈ rows, r.quit = 0 ∨ r.quit = 1) :
    (∀ p ∈ dept rows,
      p.2 = (((rows.filter fun r => r.dept = p.1).filter fun r => r.quit = 1).length : ℚ)
            / ((rows.filter fun r => r.dept = p.1).length : ℚ) * 100) ∧
    ((dept rows).map fun p =>
        ((rows.filter fun r => r.dept = p.1).length : ℚ) * p.2).sum
      = (rows.length : ℚ) * quit_rate rows ∧
    (∀ p ∈ sal rows,
      p.2 = ((((salRows rows).filter fun r => salKey r = p.1).filter
                fun r => r.quit = 1).length : ℚ)
            / (((salRows rows).filter fun r => salKey r = p.1).length : ℚ) * 100) ∧
    ((sal rows).map fun p =>
        (((salRows rows).filter fun r => salKey r = p.1).length : ℚ) * p.2).sum
      = ((salRows rows).length : ℚ) * quit_rate (salRows rows) ∧
    (∀ p ∈ ot rows,
      p.2 = (((rows.filter fun r => r.overtime = p.1).filter fun r => r.quit = 1).length : ℚ)
            / ((rows.filter fun r => r.overtime = p.1).length : ℚ) * 100) ∧
    ((ot rows).map fun p =>
        ((rows.filter fun r => r.overtime = p.1).length : ℚ) * p.2).sum
      = (rows.length : ℚ) * quit_rate rows := by
  have h01s : ∀ r ∈ salRows rows, r.quit = 0 ∨ r.quit = 1 :=
    fun r hr => h01 r (List.mem_of_mem_filter hr)
  refine ⟨?_, ?_, ?_, ?_, ?_, ?_⟩
  · intro p hp
    simp only [dept, deptRate] at hp
    rw [mem_insertionSort_iff] at hp
    exact agg_rate_mem rows Row.dept (deptKeys rows) h01 p hp
  · simp only [dept, deptRate]
    rw [sum_map_insertionSort]
    exact agg_weighted rows Row.dept (deptKeys rows) (deptKeys_nodup rows)
      (fun x hx => mem_deptKeys.mpr (List.mem_map_of_mem Row.dept hx))
  · intro p hp
    simp only [sal, salRate] at hp
    exact agg_rate_mem (salRows rows) salKey (salKeys rows) h01s p hp
  · simp only [sal, salRate]
    exact agg_weighted (salRows rows) salKey (salKeys rows) (salKeys_nodup rows)
      (fun x hx => mem_salKeys.mpr (List.mem_map_of_mem salKey hx))
  · intro p hp
    simp only [ot, otRate] at hp
    exact agg_rate_mem rows Row.overtime (otKeys rows) h01 p hp
  · simp only [ot, otRate]
    exact agg_weighted rows Row.overtime (otKeys rows) (otKeys_nodup rows)
      (fun x hx => mem_otKeys.mpr (List.mem_map_of_mem Row.overtime hx))

/-- C3: when reading the file fails (missing or malformed file), both
loaders return the empty table instead of raising, and both script flows
then show the user-visible error and halt the render; no exception
reaches the user on that path. -/
theorem claim_c3 (e : String) :
    load_df (.error e) = .ok emptyTable ∧
    load_df2 (.error e) = .ok emptyTable ∧
    app1 (.error e) = .ok Page.errorStop ∧
    app2 (.error e) = .ok Page.errorStop :=
  ⟨rfl, rfl, rfl, rfl⟩

/-- C4: every table either loader returns has a 0/1 attrition flag on
every row, and a parsed CSV containing a Yes/No value other than "Yes"
or "No" is never turned into a table at all: the cast raises instead of
coercing to a third flag value. -/
theorem claim_c4 :
    (∀ (rr : Except String Csv) (t : Table), load_df rr = .ok t →
      ∀ r ∈ t.rows, r.quit = 0 ∨ r.quit = 1) ∧
    (∀ (rr : Except String Csv) (t : Table), load_df2 rr = .ok t →
      ∀ r ∈ t.rows, r.quit = 0 ∨ r.quit = 1) ∧
    (∀ (csv : Csv) (r : RawRow), r ∈ csv.rows → mapYN r.attritionYN = none →
      (∀ t, load_df (.ok csv) ≠ .ok t) ∧ (∀ t, load_df2 (.ok csv) ≠ .ok t)) := by
  have h1 : ∀ (rr : Except String Csv) (t : Table), load_df rr = .ok t →
      ∀ r ∈ t.rows, r.quit = 0 ∨ r.quit = 1 := by
    intro rr t h
    cases rr with
    | error e =>
      have : t = emptyTable := by
        have hload : load_df (.error e) = .ok emptyTable := rfl
        rw [hload] at h
        injection h with h2
        exact h2.symm
      subst this
      intro r hr
      cases hr
    | ok csv =>
      have hdef : load_df (.ok csv)
          = match astypeInt8 csv.rows with
            | none => .error "IntCastingNaNError"
            | some rows =>
              if csv.hasEmpCount && csv.hasOver18 then
                .ok { rows := rows, hasEmpCount := false, hasOver18 := false }
              else
                .error "KeyError" := rfl
      rw [hdef] at h
      cases hast : astypeInt8 csv.rows <;> rw [hast] at h
      · cases h
      · rename_i rows
        split_ifs at h
        injection h with h2
        subst h2
        exact astypeInt8_flags csv.rows rows hast
  have h2 : ∀ (rr : Except String Csv) (t : Table), load_df2 rr = .ok t →
      ∀ r ∈ t.rows, r.quit = 0 ∨ r.quit = 1 := by
    intro rr t h
    cases rr with
    | error e =>
      have : t = emptyTable := by
        have hload : load_df2 (.error e) = .ok emptyTable := rfl
        rw [hload] at h
        injection h with h2
        exact h2.symm
      subst this
      intro r hr
      cases hr
    | ok csv =>
      have hdef : load_df2 (.ok csv)
          = match astypeInt8 csv.rows with
            | none => .error "IntCastingNaNError"
            | some rows =>
              if csv.hasEmpCount && csv.hasOver18 then
                .ok { rows := rows, hasEmpCount := false, hasOver18 := false }
              else
                .ok { rows := rows, hasEmpCount := csv.hasEmpCount,
                      hasOver18 := csv.hasOver18 } := rfl
      rw [hdef] at h
      cases hast : astypeInt8 csv.rows <;> rw [hast] at h
      · cases h
      · rename_i rows
        split_ifs at h
        · injection h with h2
          subst h2
          exact astypeInt8_flags csv.rows rows hast
        · injection h with h2
          subst h2
          exact astypeInt8_flags csv.rows rows hast
  refine ⟨h1, h2, ?_⟩
  intro csv r hr hbad
  have hast : astypeInt8 csv.rows = none :=
    astypeInt8_none csv.rows r hr (toFlag_eq_none.mpr hbad)
  constructor
  · intro t h
    have hdef : load_df (.ok csv)
        = match astypeInt8 csv.rows with
          | none => .error "IntCastingNaNError"
          | some rows =>
            if csv.hasEmpCount && csv.hasOver18 then
              .ok { rows := rows, hasEmpCount := false, hasOver18 := false }
            else
              .error "KeyError" := rfl
    rw [hdef, hast] at h
    cases h
  · intro t h
    have hdef : load_df2 (.ok csv)
        = match astypeInt8 csv.rows with
          | none => .error "IntCastingNaNError"
          | some rows =>
            if csv.hasEmpCount && csv.hasOver18 then
              .ok { rows := rows, hasEmpCount := false, hasOver18 := false }
            else
              .ok { rows := rows, hasEmpCount := csv.hasEmpCount,
                    hasOver18 := csv.hasOver18 } := rfl
    rw [hdef, hast] at h
    cases h

/-- C4 witness: the loaded one-row table has a 0/1 flag, and the CSV with
the unrecognized value "Maybe" is rejected by both loaders. -/
theorem claim_c4_witness :
    (({ quit := 1, dept := "A", salaryPct := some 3, overtime := "Yes" } : Row).quit = 0 ∨
      ({ quit := 1, dept := "A", salaryPct := some 3, overtime := "Yes" } : Row).quit = 1) ∧
    load_df (.ok csvBadVal) ≠ .ok emptyTable ∧
    load_df2 (.ok csvBadVal) ≠ .ok emptyTable := by
  refine ⟨?_, ?_, ?_⟩
  · exact claim_c4.1 (.ok csvGood) tableGood rfl _ (by simp [tableGood])
  · exact (claim_c4.2.2 csvBadVal
      { attritionYN := "Maybe", dept := "A", salaryPct := none, overtime := "No" }
      (by simp [csvBadVal]) (by decide)).1 emptyTable
  · exact (claim_c4.2.2 csvBadVal
      { attritionYN := "Maybe", dept := "A", salaryPct := none, overtime := "No" }
      (by simp [csvBadVal]) (by decide)).2 emptyTable

/-- C7 counterexample: on a well-formed one-row CSV in which the 직원수
column is absent, the hr_analysis.py loader raises a KeyError instead of
succeeding, because its `df.drop(['직원수','18세이상'])` is unconditional. -/
theorem claim_c7_counterexample :
    load_df (.ok csvNoCols) = .error "KeyError" := rfl

/-- C7 (amended): the hr_analysis2.py loader drops the two constant
columns only when both are present and succeeds, one output row per
input row, when they are absent; the hr_analysis.py loader instead fails
on every well-formed CSV in which either column is absent. -/
theorem claim_c7 (csv : Csv) (hwf : ∀ r ∈ csv.rows, mapYN r.attritionYN ≠ none) :
    (∃ t : Table, load_df2 (.ok csv) = .ok t ∧ t.rows.length = csv.rows.length ∧
      (csv.hasEmpCount = true ∧ csv.hasOver18 = true →
        t.hasEmpCount = false ∧ t.hasOver18 = false) ∧
      (¬(csv.hasEmpCount = true ∧ csv.hasOver18 = true) →
        t.hasEmpCount = csv.hasEmpCount ∧ t.hasOver18 = csv.hasOver18)) ∧
    (¬(csv.hasEmpCount = true ∧ csv.hasOver18 = true) →
      ∀ t, load_df (.ok csv) ≠ .ok t) := by
  have hwf2 : ∀ r ∈ csv.rows, toFlag r ≠ none :=
    fun r hr h => hwf r hr (toFlag_eq_none.mp h)
  rcases astypeInt8_total csv.rows hwf2 with ⟨out, hout, hlen⟩
  have hdef2 : load_df2 (.ok csv)
      = match astypeInt8 csv.rows with
        | none => .error "IntCastingNaNError"
        | some rows =>
          if csv.hasEmpCount && csv.hasOver18 then
            .ok { rows := rows, hasEmpCount := false, hasOver18 := false }
          else
            .ok { rows := rows, hasEmpCount := csv.hasEmpCount,
                  hasOver18 := csv.hasOver18 } := rfl
  have hdef1 : load_df (.ok csv)
      = match astypeInt8 csv.rows with
        | none => .error "IntCastingNaNError"
        | some rows =>
          if csv.hasEmpCount && csv.hasOver18 then
            .ok { rows := rows, hasEmpCount := false, hasOver18 := false }
          else
            .error "KeyError" := rfl
  have hload2 : load_df2 (.ok csv)
      = if (csv.hasEmpCount && csv.hasOver18) = true
        then Except.ok { rows := out, hasEmpCount := false, hasOver18 := false }
        else Except.ok { rows := out, hasEmpCount := csv.hasEmpCount,
                         hasOver18 := csv.hasOver18 } := by
    rw [hdef2, hout]
  have hload1 : load_df (.ok csv)
      = if (csv.hasEmpCount && csv.hasOver18) = true
        then Except.ok { rows := out, hasEmpCount := false, hasOver18 := false }
        else Except.error "KeyError" := by
    rw [hdef1, hout]
  constructor
  · by_cases hc : csv.hasEmpCount = true ∧ csv.hasOver18 = true
    · have hb : (csv.hasEmpCount && csv.hasOver18) = true := by
        rw [hc.1, hc.2]
        rfl
      refine ⟨{ rows := out, hasEmpCount := false, hasOver18 := false },
        ?_, hlen, fun _ => ⟨rfl, rfl⟩, fun hn => absurd hc hn⟩
      rw [hload2, if_pos hb]
    · have hb : ¬ ((csv.hasEmpCount && csv.hasOver18) = true) := by
        simp only [Bool.and_eq_true]
        exact hc
      refine ⟨{ rows := out, hasEmpCount := csv.hasEmpCount,
                hasOver18 := csv.hasOver18 },
        ?_, hlen, fun hcon => absurd hcon hc, fun _ => ⟨rfl, rfl⟩⟩
      rw [hload2, if_neg hb]
  · intro hc t h
    have hb : ¬ ((csv.hasEmpCount && csv.hasOver18) = true) := by
      simp only [Bool.and_eq_true]
      exact hc
    rw [hload1, if_neg hb] at h
    cases h

/-- C7 witness: the amended statement instantiated on the concrete CSV
lacking the 직원수 column. -/
theorem claim_c7_witness :
    (∃ t : Table, load_df2 (.ok csvNoCols) = .ok t ∧
      t.rows.length = csvNoCols.rows.length ∧
      (csvNoCols.hasEmpCount = true ∧ csvNoCols.hasOver18 = true →
        t.hasEmpCount = false ∧ t.hasOver18 = false) ∧
      (¬(csvNoCols.hasEmpCount = true ∧ csvNoCols.hasOver18 = true) →
        t.hasEmpCount = csvNoCols.hasEmpCount ∧ t.hasOver18 = csvNoCols.hasOver18)) ∧
    load_df (.ok csvNoCols) ≠ .ok emptyTable := by
  have h := claim_c7 csvNoCols (by decide)
  exact ⟨h.1, h.2 (by decide) emptyTable⟩

/-- The bucket chosen by `rnd` is a nearest integer. -/
theorem rnd_min (v : ℚ) (m : ℤ) : |v - (rnd v : ℚ)| ≤ |v - (m : ℚ)| := by
  have hfr0 : 0 ≤ Int.fract v := Int.fract_nonneg v
  have hfr1 : Int.fract v < 1 := Int.fract_lt_one v
  have hv : ((⌊v⌋ : ℤ) : ℚ) + Int.fract v = v := Int.floor_add_fract v
  have habsf : |v - ((⌊v⌋ : ℤ) : ℚ)| = Int.fract v := by
    rw [abs_of_nonneg (by linarith)]
    linarith
  have habsf1 : |v - ((⌊v⌋ + 1 : ℤ) : ℚ)| = 1 - Int.fract v := by
    push_cast
    rw [abs_of_nonpos (by linarith)]
    linarith
  rcases le_or_lt m ⌊v⌋ with hm | hm
  · have hm2 : (m : ℚ) ≤ ((⌊v⌋ : ℤ) : ℚ) := by exact_mod_cast hm
    have hge : Int.fract v ≤ v - (m : ℚ) := by linarith
    have habs : |v - (m : ℚ)| = v - (m : ℚ) := abs_of_nonneg (by linarith)
    rw [rnd]
    split_ifs with h1 h2 h3
    · rw [habsf, habs]
      linarith
    · rw [habsf1, habs]
      linarith
    · rw [habsf, habs]
      linarith
    · rw [habsf1, habs]
      have hhalf : Int.fract v = 1/2 := le_antisymm (not_lt.mp h2) (not_lt.mp h1)
      linarith
  · have hm1 : ⌊v⌋ + 1 ≤ m := hm
    have hm2 : ((⌊v⌋ : ℤ) : ℚ) + 1 ≤ (m : ℚ) := by exact_mod_cast hm1
    have hge : 1 - Int.fract v ≤ (m : ℚ) - v := by linarith
    have habs : |v - (m : ℚ)| = (m : ℚ) - v := by
      rw [abs_sub_comm]
      exact abs_of_nonneg (by linarith)
    rw [rnd]
    split_ifs with h1 h2 h3
    · rw [habsf, habs]
      linarith
    · rw [habsf1, habs]
      linarith
    · rw [habsf, habs]
      have hhalf : Int.fract v = 1/2 := le_antisymm (not_lt.mp h2) (not_lt.mp h1)
      linarith
    · rw [habsf1, habs]
      linarith

/-- At an exact half, `rnd` picks the even neighbour. -/
theorem rnd_even_at_half (v : ℚ) (h : Int.fract v = 1/2) : Even (rnd v) := by
  rw [rnd, h, if_neg (by norm_num), if_neg (by norm_num)]
  split_ifs with hdvd
  · exact even_iff_two_dvd.mpr hdvd
  · have hodd : ¬ Even ⌊v⌋ := fun hc => hdvd (even_iff_two_dvd.mp hc)
    exact Int.even_add_one.mpr hodd

/-- C9: the salary aggregator buckets each non-null percentage with
`rnd`, which assigns every value a nearest integer (no bucket is
strictly closer), and at an exact half the tie is broken
deterministically towards the even integer (numpy round-half-even). -/
theorem claim_c9 :
    (∀ (v : ℚ) (m : ℤ), |v - (rnd v : ℚ)| ≤ |v - (m : ℚ)|) ∧
    (∀ v : ℚ, Int.fract v = 1/2 → Even (rnd v)) ∧
    (∀ r : Row, salKey r = rnd (r.salaryPct.getD 0)) :=
  ⟨rnd_min, rnd_even_at_half, fun _ => rfl⟩

/-- C9 witness: at 3/2 the chosen bucket is at least as close as the
bucket 1, and the tie at the half is broken to the even integer 2. -/
theorem claim_c9_witness :
    |(3/2 : ℚ) - ((rnd (3/2 : ℚ)) : ℚ)| ≤ |(3/2 : ℚ) - ((1 : ℤ) : ℚ)| ∧
    Even (rnd (3/2 : ℚ)) := by
  have hfr : Int.fract (3/2 : ℚ) = 1/2 := by
    have hfl : ⌊(3/2 : ℚ)⌋ = 1 := by
      rw [Int.floor_eq_iff]
      norm_num
    rw [Int.fract, hfl]
    norm_num
  exact ⟨claim_c9.1 (3/2) 1, claim_c9.2.1 (3/2) hfr⟩

/-- The running minimum of the idxmin fold is a lower bound for the seed
and for every element folded over. -/
theorem foldl_min_le {K : Type} (ps : List (K × ℚ)) (a : K × ℚ) :
    (ps.foldl (fun acc q => if q.2 < acc.2 then q else acc) a).2 ≤ a.2 ∧
    ∀ q ∈ ps, (ps.foldl (fun acc q => if q.2 < acc.2 then q else acc) a).2 ≤ q.2 := by
  induction ps generalizing a with
  | nil =>
    refine ⟨le_refl _, ?_⟩
    intro q hq
    cases hq
  | cons x xs ih =>
    have hstep : ((x :: xs).foldl (fun acc q => if q.2 < acc.2 then q else acc) a)
        = xs.foldl (fun acc q => if q.2 < acc.2 then q else acc)
            (if x.2 < a.2 then x else a) := rfl
    rcases ih (if x.2 < a.2 then x else a) with ⟨h1, h2⟩
    have hseed : (if x.2 < a.2 then x else a).2 ≤ a.2 := by
      by_cases hx : x.2 < a.2
      · rw [if_pos hx]; exact le_of_lt hx
      · rw [if_neg hx]
    have hseedx : (if x.2 < a.2 then x else a).2 ≤ x.2 := by
      by_cases hx : x.2 < a.2
      · rw [if_pos hx]
      · rw [if_neg hx]; exact not_lt.mp hx
    refine ⟨by rw [hstep]; exact le_trans h1 hseed, ?_⟩
    intro q hq
    rcases List.mem_cons.mp hq with h | h
    · subst h
      rw [hstep]
      exact le_trans h1 hseedx
    · rw [hstep]
      exact h2 q h

/-- The result of the idxmax fold is one of the seed or the elements. -/
theorem foldl_max_mem {K : Type} (ps : List (K × ℚ)) (a : K × ℚ) :
    (ps.foldl (fun acc q => if acc.2 < q.2 then q else acc) a) ∈ a :: ps := by
  induction ps generalizing a with
  | nil => simp
  | cons x xs ih =>
    have hstep : ((x :: xs).foldl (fun acc q => if acc.2 < q.2 then q else acc) a)
        = xs.foldl (fun acc q => if acc.2 < q.2 then q else acc)
            (if a.2 < x.2 then x else a) := rfl
    rw [hstep]
    have hm := ih (if a.2 < x.2 then x else a)
    rcases List.mem_cons.mp hm with h | h
    · rw [h]
      by_cases hx : a.2 < x.2
      · rw [if_pos hx]
        simp
      · rw [if_neg hx]
        simp
    · simp [h]

/-- The salary "low-increase group" sentence is never the overall
insight. -/
theorem salLow_ne_overallInsight (rows : List Row) :
    Sentence.salLowGroup ≠ overallInsight rows := by
  rw [overallInsight]
  split_ifs <;> intro h <;> contradiction

/-- The salary "low-increase group" sentence never comes from the
department rule. -/
theorem salLow_not_mem_deptInsights (rows : List Row) :
    Sentence.salLowGroup ∉ deptInsights rows := by
  intro h
  rw [deptInsights] at h
  rcases List.mem_append.mp h with h2 | h2 <;> split_ifs at h2 <;> simp at h2

/-- The salary "low-increase group" sentence never comes from the
overtime rule. -/
theorem salLow_not_mem_otInsight (rows : List Row) :
    Sentence.salLowGroup ∉ otInsight rows := by
  intro h
  rw [otInsight] at h
  rcases hmin : minPair (ot rows) with _ | mn <;> rw [hmin] at h
  · simp at h
  · rcases hmax : maxPair (ot rows) with _ | mx <;> rw [hmax] at h
    · simp at h
    · have hred : (match some mn, some mx with
          | some mn, some mx => if mx.2 - mn.2 > 5 then [Sentence.otHigh mx.1] else []
          | _, _ => ([] : List Sentence))
          = if mx.2 - mn.2 > 5 then [Sentence.otHigh mx.1] else [] := rfl
      rw [hred] at h
      split_ifs at h <;> simp at h

/-- C10: on every table with at least one salary bucket, the guard
`sal[sal.idxmin()] > sal[sal.idxmax()]` compares the minimum rate with
the maximum rate and can never hold, so the "low-increase group quits
more" sentence is unreachable and the salary insight is always the
"no clear correlation" sentence. -/
theorem claim_c10 (rows : List Row) (hne : sal rows ≠ []) :
    salInsight rows = .ok Sentence.salNoCorr ∧
    (∀ out, insights rows = .ok out → Sentence.salLowGroup ∉ out) := by
  rcases hsal : sal rows with _ | ⟨p, ps⟩
  · exact absurd hsal hne
  have hmn : minPair (p :: ps)
      = some (ps.foldl (fun acc q => if q.2 < acc.2 then q else acc) p) := rfl
  have hmx : maxPair (p :: ps)
      = some (ps.foldl (fun acc q => if acc.2 < q.2 then q else acc) p) := rfl
  have hle : (ps.foldl (fun acc q => if q.2 < acc.2 then q else acc) p).2
      ≤ (ps.foldl (fun acc q => if acc.2 < q.2 then q else acc) p).2 := by
    rcases foldl_min_le ps p with ⟨h1, h2⟩
    rcases List.mem_cons.mp (foldl_max_mem ps p) with h | h
    · rw [h]
      exact h1
    · exact h2 _ h
  have hdef : salInsight rows
      = match minPair (sal rows), maxPair (sal rows) with
        | some mn, some mx =>
          .ok (if mn.2 > mx.2 then Sentence.salLowGroup else Sentence.salNoCorr)
        | _, _ => .error "ValueError" := rfl
  have hsi : salInsight rows = .ok Sentence.salNoCorr := by
    rw [hdef, hsal, hmn, hmx]
    simp only [gt_iff_lt, if_neg (not_lt.mpr hle)]
  refine ⟨hsi, ?_⟩
  intro out hout
  have hdef2 : insights rows
      = match salInsight rows with
        | .error e => .error e
        | .ok s => .ok ([overallInsight rows] ++ deptInsights rows ++ [s]
            ++ otInsight rows) := rfl
  rw [hdef2, hsi] at hout
  injection hout with hout2
  subst hout2
  have h1 := salLow_ne_overallInsight rows
  have h2 := salLow_not_mem_deptInsights rows
  have h3 := salLow_not_mem_otInsight rows
  simp only [List.mem_append, List.mem_singleton, not_or]
  refine ⟨⟨⟨h1, h2⟩, ?_⟩, h3⟩
  intro hc
  contradiction

/-- C1 witness: the weighted-sum identities instantiated on the concrete
two-row table. -/
theorem claim_c1_witness :
    ((dept exW).map fun p =>
        ((exW.filter fun r => r.dept = p.1).length : ℚ) * p.2).sum
      = (exW.length : ℚ) * quit_rate exW ∧
    ((sal exW).map fun p =>
        (((salRows exW).filter fun r => salKey r = p.1).length : ℚ) * p.2).sum
      = ((salRows exW).length : ℚ) * quit_rate (salRows exW) := by
  have h := claim_c1 exW (by decide)
  exact ⟨h.2.1, h.2.2.2.1⟩

/-- Rounding `rnd` is the identity on integers. -/
theorem rnd_intCast (n : ℤ) : rnd ((n : ℤ) : ℚ) = n := by
  rw [rnd]
  have hfr : Int.fract ((n : ℤ) : ℚ) = 0 := Int.fract_intCast n
  rw [hfr, if_pos (by norm_num)]
  exact Int.floor_intCast n

/-- Concretely, `rnd 3 = 3`. -/
theorem rnd_three : rnd (3 : ℚ) = 3 := by
  have h : (3 : ℚ) = ((3 : ℤ) : ℚ) := by norm_num
  rw [h, rnd_intCast]

/-- Overall rate of the two-row table. -/
theorem exW_quit_rate : quit_rate exW = 50 := by
  rw [quit_rate, show quitSum exW = 1 from rfl, show exW.length = 2 from rfl]
  norm_num

/-- Department keys of the two-row table. -/
theorem exW_deptKeys : deptKeys exW = ["A"] := rfl

/-- Department rate of the two-row table. -/
theorem exW_deptRate : deptRate exW "A" = 50 := by
  rw [deptRate, groupMeanPct]
  have hf : exW.filter (fun r => r.dept = "A") = exW := by decide
  rw [hf, show quitSum exW = 1 from rfl, show exW.length = 2 from rfl]
  norm_num

/-- Department aggregate of the two-row table. -/
theorem exW_dept : dept exW = [("A", 50)] := by
  rw [dept, exW_deptKeys]
  simp [List.insertionSort, List.orderedInsert, exW_deptRate]

/-- No department of the two-row table is 5 points above the overall
rate. -/
theorem exW_highDepts : highDepts exW = [] := by
  rw [highDepts, exW_dept, exW_quit_rate]
  have hc : ¬ ((50 : ℚ) > 50 + 5) := by norm_num
  simp [hc]

/-- No department of the two-row table is 5 points below the overall
rate. -/
theorem exW_lowDepts : lowDepts exW = [] := by
  rw [lowDepts, exW_dept, exW_quit_rate]
  have hc : ¬ ((50 : ℚ) < 50 - 5) := by norm_num
  simp [hc]

/-- The department rule emits nothing on the two-row table. -/
theorem exW_deptInsights : deptInsights exW = [] := by
  rw [deptInsights, exW_highDepts, exW_lowDepts]
  simp

/-- Overtime aggregate of the two-row table. -/
theorem exW_ot : ot exW = [("Yes", otRate exW "Yes")] := rfl

/-- The overtime rule emits nothing on the two-row table: a single group
has zero spread. -/
theorem exW_otInsight : otInsight exW = [] := by
  rw [otInsight, exW_ot]
  have hmn : minPair [("Yes", otRate exW "Yes")] = some ("Yes", otRate exW "Yes") := rfl
  have hmx : maxPair [("Yes", otRate exW "Yes")] = some ("Yes", otRate exW "Yes") := rfl
  rw [hmn, hmx]
  have hred : (match some ("Yes", otRate exW "Yes"), some ("Yes", otRate exW "Yes") with
      | some mn, some mx => if mx.2 - mn.2 > 5 then [Sentence.otHigh mx.1] else []
      | _, _ => ([] : List Sentence))
      = if otRate exW "Yes" - otRate exW "Yes" > 5
        then [Sentence.otHigh "Yes"] else [] := rfl
  rw [hred, if_neg (by rw [sub_self]; norm_num)]

/-- Salary-bucket keys of the two-row table. -/
theorem exW_salKeys : salKeys exW = [3] := by
  rw [salKeys]
  have hsr : salRows exW = exW := rfl
  rw [hsr]
  have h1 : salKey { quit := 1, dept := "A", salaryPct := some 3, overtime := "Yes" } = 3 := by
    rw [salKey]
    exact rnd_three
  have h2 : salKey { quit := 0, dept := "A", salaryPct := some 3, overtime := "Yes" } = 3 := by
    rw [salKey]
    exact rnd_three
  have hmap : exW.map salKey = [3, 3] := by
    simp only [exW, List.map_cons, List.map_nil, h1, h2]
  rw [hmap]
  rfl

/-- Salary aggregate of the two-row table. -/
theorem exW_sal : sal exW = [(3, salRate exW 3)] := by
  rw [sal, exW_salKeys]
  rfl

/-- The two-row table has a non-empty salary aggregate. -/
theorem exW_sal_ne : sal exW ≠ [] := by
  rw [exW_sal]
  simp

/-- The salary rule picks the no-correlation sentence on the two-row
table. -/
theorem exW_salInsight : salInsight exW = .ok Sentence.salNoCorr := by
  have hdef : salInsight exW
      = match minPair (sal exW), maxPair (sal exW) with
        | some mn, some mx =>
          .ok (if mn.2 > mx.2 then Sentence.salLowGroup else Sentence.salNoCorr)
        | _, _ => .error "ValueError" := rfl
  rw [hdef, exW_sal]
  have hmn : minPair [((3 : ℤ), salRate exW 3)] = some ((3 : ℤ), salRate exW 3) := rfl
  have hmx : maxPair [((3 : ℤ), salRate exW 3)] = some ((3 : ℤ), salRate exW 3) := rfl
  rw [hmn, hmx]
  have hred : (match some ((3 : ℤ), salRate exW 3), some ((3 : ℤ), salRate exW 3) with
      | some mn, some mx =>
        (Except.ok (if mn.2 > mx.2 then Sentence.salLowGroup else Sentence.salNoCorr) :
          Except String Sentence)
      | _, _ => Except.error "ValueError")
      = Except.ok (if salRate exW 3 > salRate exW 3
          then Sentence.salLowGroup else Sentence.salNoCorr) := rfl
  rw [hred, if_neg (lt_irrefl _)]

/-- The one-line summary condition holds on the two-row table. -/
theorem exW_overallInsight : overallInsight exW = Sentence.overallHighDetail := by
  rw [overallInsight, if_pos]
  rw [exW_quit_rate]
  norm_num

/-- The full insight list of the two-row table. -/
theorem exW_insights :
    insights exW = .ok [Sentence.overallHighDetail, Sentence.salNoCorr] := by
  have hdef : insights exW
      = match salInsight exW with
        | .error e => .error e
        | .ok s => .ok ([overallInsight exW] ++ deptInsights exW ++ [s]
            ++ otInsight exW) := rfl
  have hred : insights exW
      = .ok ([overallInsight exW] ++ deptInsights exW ++ [Sentence.salNoCorr]
          ++ otInsight exW) := by
    rw [hdef, exW_salInsight]
  rw [hred, exW_overallInsight, exW_deptInsights, exW_otInsight]
  rfl

/-- C10 witness: the salary insight of the concrete two-row table is the
no-correlation sentence. -/
theorem claim_c10_witness : salInsight exW = .ok Sentence.salNoCorr :=
  (claim_c10 exW exW_sal_ne).1

/-- Anything the department rule emits is one of its two sentences. -/
theorem mem_deptInsights_shape (rows : List Row) (x : Sentence)
    (h : x ∈ deptInsights rows) :
    x = Sentence.deptHigh (highDepts rows) ∨ x = Sentence.deptLow (lowDepts rows) := by
  rw [deptInsights] at h
  rcases List.mem_append.mp h with h2 | h2 <;> split_ifs at h2 <;> simp at h2
  · exact Or.inl h2
  · exact Or.inr h2

/-- Anything the overtime rule emits is an overtime sentence. -/
theorem mem_otInsight_shape (rows : List Row) (x : Sentence)
    (h : x ∈ otInsight rows) : ∃ g, x = Sentence.otHigh g := by
  rw [otInsight] at h
  rcases hmin : minPair (ot rows) with _ | mn <;> rw [hmin] at h
  · simp at h
  · rcases hmax : maxPair (ot rows) with _ | mx <;> rw [hmax] at h
    · simp at h
    · have hred : (match some mn, some mx with
          | some mn, some mx => if mx.2 - mn.2 > 5 then [Sentence.otHigh mx.1] else []
          | _, _ => ([] : List Sentence))
          = if mx.2 - mn.2 > 5 then [Sentence.otHigh mx.1] else [] := rfl
      rw [hred] at h
      split_ifs at h <;> simp at h
      exact ⟨mx.1, h⟩

/-- A successful salary rule emits one of its two sentences. -/
theorem salInsight_shape (rows : List Row) (s : Sentence)
    (h : salInsight rows = .ok s) :
    s = Sentence.salLowGroup ∨ s = Sentence.salNoCorr := by
  rw [salInsight] at h
  rcases hmin : minPair (sal rows) with _ | mn <;> rw [hmin] at h
  · cases h
  · rcases hmax : maxPair (sal rows) with _ | mx <;> rw [hmax] at h
    · cases h
    · have hred : (match some mn, some mx with
          | some mn, some mx =>
            (Except.ok (if mn.2 > mx.2 then Sentence.salLowGroup else Sentence.salNoCorr) :
              Except String Sentence)
          | _, _ => Except.error "ValueError")
          = Except.ok (if mn.2 > mx.2
              then Sentence.salLowGroup else Sentence.salNoCorr) := rfl
      rw [hred] at h
      injection h with h2
      split_ifs at h2
      · exact Or.inl h2.symm
      · exact Or.inr h2.symm

/-- C2: the "needs attention" summary and the "overall high" insight fire
exactly when the overall rate exceeds 20; within any successfully built
insight list, the overall-high sentence appears exactly when the overall
rate exceeds 20 and the flagged-departments sentence appears exactly when
some department qualifies; and a department is flagged exactly when its
per-group rate exceeds the overall rate plus 5 points. -/
theorem claim_c2 (rows : List Row) :
    (summary rows = Sentence.needsAttention ↔ quit_rate rows > 20) ∧
    (∀ out, insights rows = .ok out →
      ((Sentence.overallHighDetail ∈ out ↔ quit_rate rows > 20) ∧
       (Sentence.deptHigh (highDepts rows) ∈ out ↔ highDepts rows ≠ []))) ∧
    (∀ d, d ∈ highDepts rows ↔
      d ∈ rows.map Row.dept ∧ deptRate rows d > quit_rate rows + 5) := by
  refine ⟨?_, ?_, ?_⟩
  · rw [summary]
    split_ifs with h
    · simp [h]
    · simp [h]
  · intro out hout
    have hdef : insights rows
        = match salInsight rows with
          | .error e => .error e
          | .ok s => .ok ([overallInsight rows] ++ deptInsights rows ++ [s]
              ++ otInsight rows) := rfl
    rcases hsi : salInsight rows with e | s <;> rw [hdef, hsi] at hout
    · cases hout
    injection hout with hout2
    subst hout2
    have hshape := salInsight_shape rows s hsi
    constructor
    · constructor
      · intro hm
        rcases List.mem_append.mp hm with hm1 | hm1
        · rcases List.mem_append.mp hm1 with hm2 | hm2
          · rcases List.mem_append.mp hm2 with hm3 | hm3
            · rw [List.mem_singleton] at hm3
              rw [overallInsight] at hm3
              split_ifs at hm3 with hq
              exact hq
            · rcases mem_deptInsights_shape rows _ hm3 with h | h <;> cases h
          · rw [List.mem_singleton] at hm2
            rcases hshape with h | h <;> rw [h] at hm2 <;> cases hm2
        · rcases mem_otInsight_shape rows _ hm1 with ⟨g, hg⟩
          cases hg
      · intro hq
        have : Sentence.overallHighDetail ∈ [overallInsight rows] := by
          rw [overallInsight, if_pos hq]
          simp
        exact List.mem_append.mpr (Or.inl (List.mem_append.mpr (Or.inl
          (List.mem_append.mpr (Or.inl this)))))
    · constructor
      · intro hm
        rcases List.mem_append.mp hm with hm1 | hm1
        · rcases List.mem_append.mp hm1 with hm2 | hm2
          · rcases List.mem_append.mp hm2 with hm3 | hm3
            · rw [List.mem_singleton] at hm3
              rw [overallInsight] at hm3
              split_ifs at hm3
            · rw [deptInsights] at hm3
              rcases List.mem_append.mp hm3 with hm4 | hm4 <;> split_ifs at hm4 with hcond <;>
                simp at hm4
              exact hcond
          · rw [List.mem_singleton] at hm2
            rcases hshape with h | h <;> rw [h] at hm2 <;> cases hm2
        · rcases mem_otInsight_shape rows _ hm1 with ⟨g, hg⟩
          cases hg
      · intro hne
        have : Sentence.deptHigh (highDepts rows) ∈ deptInsights rows := by
          rw [deptInsights, if_pos hne]
          exact List.mem_append.mpr (Or.inl (by simp))
        exact List.mem_append.mpr (Or.inl (List.mem_append.mpr (Or.inl
          (List.mem_append.mpr (Or.inr this)))))
  · intro d
    rw [highDepts]
    constructor
    · intro hd
      rcases List.mem_map.mp hd with ⟨p, hp, hpd⟩
      rcases List.mem_filter.mp hp with ⟨hpmem, hcond⟩
      rw [decide_eq_true_eq] at hcond
      simp only [dept] at hpmem
      rw [mem_insertionSort_iff] at hpmem
      rcases List.mem_map.mp hpmem with ⟨k, hk, hpk⟩
      subst hpk
      subst hpd
      exact ⟨mem_deptKeys.mp hk, hcond⟩
    · rintro ⟨hd, hcond⟩
      refine List.mem_map.mpr ⟨(d, deptRate rows d), List.mem_filter.mpr ⟨?_, ?_⟩, rfl⟩
      · simp only [dept]
        rw [mem_insertionSort_iff]
        exact List.mem_map.mpr ⟨d, mem_deptKeys.mpr hd, rfl⟩
      · rw [decide_eq_true_eq]
        exact hcond

/-- C2 witness: the iffs instantiated on the concrete two-row table and
its computed insight list. -/
theorem claim_c2_witness :
    (Sentence.overallHighDetail ∈ [Sentence.overallHighDetail, Sentence.salNoCorr]
      ↔ quit_rate exW > 20) ∧
    ("A" ∈ highDepts exW ↔
      "A" ∈ exW.map Row.dept ∧ deptRate exW "A" > quit_rate exW + 5) := by
  refine ⟨?_, (claim_c2 exW).2.2 "A"⟩
  exact ((claim_c2 exW).2.1 [Sentence.overallHighDetail, Sentence.salNoCorr] exW_insights).1

/-- C5 (amended): the department aggregates of both scripts are sorted
by rate value, descending, but the salary-bucket and overtime aggregates
are in ascending group-key order, not sorted by value. -/
theorem claim_c5 (rows : List Row) :
    List.Sorted valGe (dept rows) ∧
    List.Sorted valGe (dept_quit rows) ∧
    List.Sorted (fun a b : ℤ × ℚ => a.1 ≤ b.1) (sal rows) ∧
    List.Sorted (fun a b : String × ℚ => a.1 ≤ b.1) (ot rows) := by
  refine ⟨List.sorted_insertionSort valGe _, List.sorted_insertionSort valGe _, ?_, ?_⟩
  · have hks : List.Sorted (· ≤ ·) (salKeys rows) := List.sorted_insertionSort _ _
    exact List.Pairwise.map _ (fun a b hab => hab) hks
  · have hks : List.Sorted (· ≤ ·) (otKeys rows) := List.sorted_insertionSort _ _
    exact List.Pairwise.map _ (fun a b hab => hab) hks

/-- Rate of the "High" overtime group of the two-group table. -/
theorem exC5_rate_high : otRate exC5 "High" = 0 := by
  rw [otRate, groupMeanPct]
  have hf : exC5.filter (fun r => r.overtime = "High")
      = [{ quit := 0, dept := "A", salaryPct := none, overtime := "High" }] := by decide
  rw [hf]
  norm_num [quitSum]

/-- Rate of the "Low" overtime group of the two-group table. -/
theorem exC5_rate_low : otRate exC5 "Low" = 100 := by
  rw [otRate, groupMeanPct]
  have hf : exC5.filter (fun r => r.overtime = "Low")
      = [{ quit := 1, dept := "A", salaryPct := none, overtime := "Low" }] := by decide
  rw [hf]
  norm_num [quitSum]

/-- "High" precedes "Low" in the string order. -/
theorem high_le_low : ("High" : String) ≤ "Low" := by
  rw [String.le_iff_toList_le]
  exact le_of_lt (List.Lex.rel (by decide))

/-- Overtime keys of the two-group table, in groupby order. -/
theorem exC5_otKeys : otKeys exC5 = ["High", "Low"] := by
  rw [otKeys]
  have hdd : (exC5.map Row.overtime).dedup = ["High", "Low"] := by decide
  rw [hdd]
  simp [List.insertionSort, List.orderedInsert, high_le_low]
  exact le_of_lt (List.Lex.rel (by decide))

/-- Overtime aggregate of the two-group table: ascending rates. -/
theorem exC5_ot : ot exC5 = [("High", 0), ("Low", 100)] := by
  rw [ot, exC5_otKeys]
  simp [exC5_rate_high, exC5_rate_low]

/-- C5 counterexample: the overtime aggregate of a concrete table is not
in descending rate order, refuting the claim that every grouping
dimension is handed to display sorted by value descending. -/
theorem claim_c5_counterexample : ¬ List.Sorted valGe (ot exC5) := by
  intro hs
  rw [exC5_ot] at hs
  rcases List.sorted_cons.mp hs with ⟨hrel, _⟩
  have h := hrel ("Low", 100) (by simp)
  simp only [valGe] at h
  norm_num at h

/-- C6 (amended): the two scripts compute identical overall rates, stay
rates, salary-bucket aggregates and overtime aggregates; the second
script additionally rounds each department rate to one decimal; but
their insight rules use different thresholds, so the emitted decisions
differ (see the counterexample). -/
theorem claim_c6 (rows : List Row) :
    quit_rate2 rows = quit_rate rows ∧
    stay_rate2 rows = stay_rate rows ∧
    sal_quit rows = sal rows ∧
    overtime_quit rows = ot rows ∧
    (∀ k v, (k, v) ∈ dept rows → (k, roundTo1 v) ∈ dept_quit rows) := by
  refine ⟨rfl, rfl, rfl, rfl, ?_⟩
  intro k v hkv
  simp only [dept] at hkv
  rw [mem_insertionSort_iff] at hkv
  rcases List.mem_map.mp hkv with ⟨k2, hk2, heq⟩
  rw [Prod.mk.injEq] at heq
  rcases heq with ⟨hk2eq, hveq⟩
  subst hk2eq
  subst hveq
  simp only [dept_quit]
  rw [mem_insertionSort_iff]
  exact List.mem_map.mpr ⟨k2, hk2, rfl⟩

/-- Overall rate of the six-row table of hr_analysis.py. -/
theorem exC6_quit_rate : quit_rate exC6 = 100 / 6 := by
  rw [quit_rate, show quitSum exC6 = 1 from rfl, show exC6.length = 6 from rfl]
  norm_num

/-- Overall rate of the six-row table of hr_analysis2.py. -/
theorem exC6_quit_rate2 : quit_rate2 exC6 = 100 / 6 := by
  rw [quit_rate2, show quitSum exC6 = 1 from rfl, show exC6.length = 6 from rfl]
  norm_num

/-- C6 counterexample: at an overall rate of 100/6 ≈ 16.7%, the
hr_analysis.py needs-attention rule (threshold 20) does not fire while
the hr_analysis2.py countermeasures-needed rule (threshold 15) does, so
the two scripts do not fire the same threshold rules at the same
cut-offs. -/
theorem claim_c6_counterexample :
    needsAttentionB exC6 = false ∧ v2ActionNeeded exC6 = true := by
  constructor
  · rw [needsAttentionB]
    rw [exC6_quit_rate]
    simp only [decide_eq_false_iff_not]
    norm_num
  · rw [v2ActionNeeded, v2QuitModerate]
    rw [exC6_quit_rate2]
    simp only [Bool.not_eq_true']
    simp only [decide_eq_false_iff_not]
    norm_num

/-- C6 witness: the department entry of the concrete two-row table, with
its rate rounded to one decimal, is in the second script's department
aggregate. -/
theorem claim_c6_witness : ("A", roundTo1 50) ∈ dept_quit exW := by
  have hmem : ("A", (50 : ℚ)) ∈ dept exW := by
    rw [exW_dept]
    simp
  exact (claim_c6 exW).2.2.2.2 "A" 50 hmem

/-- C8: on every non-empty table with 0/1 flags the overall rate is the
flag-1 count over the row count times 100 and the stay rate is its
complement; on the concrete 10-row table with 3 attrited rows the rates
are 30% and 70% and the needs-attention summary fires. -/
theorem claim_c8 (rows : List Row) (h01 : ∀ r ∈ rows, r.quit = 0 ∨ r.quit = 1)
    (_hne : rows ≠ []) :
    quit_rate rows
      = ((rows.filter fun r => r.quit = 1).length : ℚ) / (rows.length : ℚ) * 100 ∧
    stay_rate rows = 100 - quit_rate rows ∧
    quit_rate ex10 = 30 ∧
    stay_rate ex10 = 70 ∧
    summary ex10 = Sentence.needsAttention := by
  have hq10 : quit_rate ex10 = 30 := by
    rw [quit_rate, show quitSum ex10 = 3 from rfl, show ex10.length = 10 from rfl]
    norm_num
  refine ⟨?_, rfl, hq10, ?_, ?_⟩
  · rw [quit_rate, quitSum_eq_count rows h01]
    push_cast
    ring
  · rw [stay_rate, hq10]
    norm_num
  · rw [summary, if_pos]
    rw [hq10]
    norm_num

/-- C8 witness: the end-to-end numbers of the concrete 10-row example. -/
theorem claim_c8_witness :
    quit_rate ex10 = 30 ∧ stay_rate ex10 = 70 ∧
    summary ex10 = Sentence.needsAttention := by
  have h := claim_c8 ex10 (by decide) (by decide)
  exact ⟨h.2.2.1, h.2.2.2.1, h.2.2.2.2⟩

end HR
